import Mathlib

/-!
Shallow embedding of the `singleton-registry` crate's core
(`src/registry_trait.rs`, `src/registry_error.rs`, `src/registry_event.rs`).

The registry is a map from a type identity (`TypeId`) to a type-erased,
reference-counted value (`Arc<dyn Any + Send + Sync>`), guarded by a mutex.
We model:

* `TypeId` as an opaque `Nat` token (distinct types have distinct tokens);
* a typed `Arc<T>` as a structure carrying the payload (abstracted to `Nat`);
* the erased `Arc<dyn Any>` as payload plus the dynamic type tag that Rust's
  `downcast` inspects;
* the `HashMap<TypeId, Arc<dyn Any>>` as an association list with
  insert-or-replace, lookup and contains-key mirroring the `HashMap` calls
  the code makes;
* lock poisoning as a boolean input `poisoned` to each operation, standing
  for whether `Mutex::lock` returns `Err(PoisonError)` at the moment the
  operation acquires the storage lock (in a single-threaded execution of
  this API the storage lock is never poisoned, since no code path panics
  while holding it; the flag lets us analyse the poisoned branches the code
  contains);
* the trace hub as a flag saying whether a callback is installed; each
  operation returns the list of events actually delivered to the callback,
  in delivery order.
-/

namespace SingletonRegistry

/-- Opaque compile-time type identity token (`std::any::TypeId`). -/
abbrev TypeId := Nat

/-- A typed reference-counted handle `Arc<T>`; the payload abstracts the
stored value of type `T`. -/
structure Arc where
  payload : Nat
deriving DecidableEq, Repr

/-- A type-erased handle `Arc<dyn Any + Send + Sync>`: the payload together
with the dynamic type tag that `downcast` checks. -/
structure AnyArc where
  dynType : TypeId
  payload : Nat
deriving DecidableEq, Repr

/-- `Arc::downcast::<T>()`: succeeds exactly when the erased value's dynamic
type equals the requested `TypeId`, returning the typed handle. -/
def downcast (tid : TypeId) (a : AnyArc) : Option Arc :=
  if a.dynType = tid then some ⟨a.payload⟩ else none

/-- Lookup in the store's map, `HashMap::get(&TypeId::of::<T>()).cloned()`:
the value of the (unique) entry with the given key, if any. -/
def hmGet (k : TypeId) : List (TypeId × AnyArc) → Option AnyArc
  | [] => none
  | p :: rest => if p.1 = k then some p.2 else hmGet k rest

/-- `HashMap::contains_key(&TypeId::of::<T>())`. -/
def hmContainsKey (k : TypeId) : List (TypeId × AnyArc) → Bool
  | [] => false
  | p :: rest => if p.1 = k then true else hmContainsKey k rest

/-- `HashMap::insert(TypeId::of::<T>(), value)`: replace the entry with this
key if present, otherwise add a new entry. -/
def hmInsert (k : TypeId) (v : AnyArc) : List (TypeId × AnyArc) → List (TypeId × AnyArc)
  | [] => [(k, v)]
  | p :: rest => if p.1 = k then (k, v) :: rest else p :: hmInsert k v rest

/-- `RegistryError` from `src/registry_error.rs`. -/
inductive RegistryError where
  | RegistryLock
  | TypeMismatch (type_name : String)
  | TypeNotFound (type_name : String)
deriving DecidableEq, Repr

/-- `RegistryEvent` from `src/registry_event.rs`. -/
inductive RegistryEvent where
  | Register (type_name : String)
  | Get (type_name : String) (found : Bool)
  | Contains (type_name : String) (found : Bool)
  | Clear
deriving DecidableEq, Repr

/-- Rust's `Display` for `bool`. -/
def boolDisplay (b : Bool) : String :=
  if b then "true" else "false"

/-- `impl Display for RegistryEvent` (`src/registry_event.rs`, lines 42-61). -/
def RegistryEvent.display : RegistryEvent → String
  | .Register type_name => "register \x7b type_name: " ++ type_name ++ " \x7d"
  | .Get type_name found =>
      "get \x7b type_name: " ++ type_name ++ ", found: " ++ boolDisplay found ++ " \x7d"
  | .Contains type_name found =>
      "contains \x7b type_name: " ++ type_name ++ ", found: " ++ boolDisplay found ++ " \x7d"
  | .Clear => "Clearing the Registry"

/-- Rust's `Result<A, RegistryError>`. -/
inductive RResult (α : Type) where
  | ok (v : α)
  | err (e : RegistryError)
deriving DecidableEq, Repr

/-- `Result::is_ok`. -/
def RResult.is_ok : RResult α → Bool
  | .ok _ => true
  | .err _ => false

/-- State of one registry instance: the storage map behind `storage()` and
whether a trace callback is currently installed behind `trace()`. -/
structure RegistryState where
  store : List (TypeId × AnyArc)
  traceCb : Bool
deriving DecidableEq, Repr

/-- `emit_event` (`registry_trait.rs`, lines 84-89): takes the trace lock
(recovering poison via `unwrap_or_else(|p| p.into_inner())`) and invokes the
callback if one is set. Returns the events delivered to the callback. -/
def emit_event (s : RegistryState) (event : RegistryEvent) : List RegistryEvent :=
  if s.traceCb then [event] else []

/-- `register_arc` (`registry_trait.rs`, lines 124-134): first emits the
`Register` event, then locks the storage (recovering poison via
`unwrap_or_else(|p| p.into_inner())`, so the insert happens even when
`poisoned` is true) and inserts the erased value under `T`'s `TypeId`. -/
def register_arc (s : RegistryState) (poisoned : Bool) (tid : TypeId) (type_name : String)
    (value : Arc) : RegistryState × List RegistryEvent :=
  let evs := emit_event s (RegistryEvent.Register type_name)
  -- lock().unwrap_or_else(|p| p.into_inner()).insert(TypeId::of::<T>(), value):
  -- the insert proceeds whether or not the lock was poisoned
  ({ s with store := hmInsert tid ⟨tid, value.payload⟩ s.store }, evs)

/-- `register` (`registry_trait.rs`, lines 111-113): wraps the value in a
fresh `Arc` and delegates to `register_arc`. -/
def register (s : RegistryState) (poisoned : Bool) (tid : TypeId) (type_name : String)
    (value : Nat) : RegistryState × List RegistryEvent :=
  register_arc s poisoned tid type_name (Arc.mk value)

/-- `get` (`registry_trait.rs`, lines 145-171): a poisoned storage lock is
mapped to `Err(RegistryError::RegistryLock)` and returned early by `?`
(before any event is emitted); otherwise the entry is looked up, the lock is
dropped, the downcast decides between `Ok`, `TypeMismatch` and
`TypeNotFound`, and a `Get` event with `found = result.is_ok()` is emitted. -/
def get (s : RegistryState) (poisoned : Bool) (tid : TypeId) (type_name : String) :
    RegistryState × List RegistryEvent × RResult Arc :=
  if poisoned then
    (s, [], .err .RegistryLock)
  else
    let any_arc_opt := hmGet tid s.store
    let result : RResult Arc :=
      match any_arc_opt with
      | some any_arc =>
        match downcast tid any_arc with
        | some arc => .ok arc
        | none => .err (.TypeMismatch type_name)
      | none => .err (.TypeNotFound type_name)
    (s, emit_event s (RegistryEvent.Get type_name result.is_ok), result)

/-- `get_cloned` (`registry_trait.rs`, lines 182-185): `self.get::<T>()?`
followed by a deep clone of the payload. -/
def get_cloned (s : RegistryState) (poisoned : Bool) (tid : TypeId) (type_name : String) :
    RegistryState × List RegistryEvent × RResult Nat :=
  match get s poisoned tid type_name with
  | (s', evs, .ok arc) => (s', evs, .ok arc.payload)
  | (s', evs, .err e) => (s', evs, .err e)

/-- `contains` (`registry_trait.rs`, lines 194-206): a poisoned storage lock
is mapped to `Err(RegistryError::RegistryLock)` and returned early by `?`
(before any event is emitted); otherwise `contains_key` decides `found`, a
`Contains` event is emitted, and `Ok(found)` is returned. -/
def contains (s : RegistryState) (poisoned : Bool) (tid : TypeId) (type_name : String) :
    RegistryState × List RegistryEvent × RResult Bool :=
  if poisoned then
    (s, [], .err .RegistryLock)
  else
    let found := hmContainsKey tid s.store
    (s, emit_event s (RegistryEvent.Contains type_name found), .ok found)

/-- `clear` (`registry_trait.rs`, lines 233-239): first emits the `Clear`
event, then clears the map only when the lock is not poisoned
(`if let Ok(mut registry) = ... .lock()`); on poison it silently skips the
clearing. -/
def clear (s : RegistryState) (poisoned : Bool) : RegistryState × List RegistryEvent :=
  let evs := emit_event s RegistryEvent.Clear
  if poisoned then (s, evs) else ({ s with store := [] }, evs)

/-! Basic lemmas about the association-list model of the `HashMap`. -/

theorem hmGet_insert_self (k : TypeId) (v : AnyArc) (l : List (TypeId × AnyArc)) :
    hmGet k (hmInsert k v l) = some v := by
  induction l with
  | nil => simp [hmInsert, hmGet]
  | cons p rest ih =>
    by_cases h : p.1 = k <;> simp [hmInsert, hmGet, h, ih]

theorem hmGet_insert_ne (k' k : TypeId) (v : AnyArc) (l : List (TypeId × AnyArc))
    (h : k' ≠ k) : hmGet k' (hmInsert k v l) = hmGet k' l := by
  have h' : k ≠ k' := fun hh => h hh.symm
  induction l with
  | nil => simp [hmInsert, hmGet, h']
  | cons p rest ih =>
    by_cases hp : p.1 = k
    · have hp' : p.1 ≠ k' := by rw [hp]; exact h'
      simp [hmInsert, hmGet, hp, hp', h']
    · simp only [hmInsert, hp, if_neg hp, hmGet]
      rw [ih]

theorem hmContainsKey_eq_isSome (k : TypeId) (l : List (TypeId × AnyArc)) :
    hmContainsKey k l = (hmGet k l).isSome := by
  induction l with
  | nil => simp [hmContainsKey, hmGet]
  | cons p rest ih =>
    by_cases h : p.1 = k <;> simp [hmContainsKey, hmGet, h, ih]

theorem hmContainsKey_iff_mem (k : TypeId) (l : List (TypeId × AnyArc)) :
    hmContainsKey k l = true ↔ ∃ a, (k, a) ∈ l := by
  induction l with
  | nil => simp [hmContainsKey]
  | cons p rest ih =>
    by_cases h : p.1 = k
    · constructor
      · intro _
        refine ⟨p.2, ?_⟩
        have hkp : (k, p.2) = p := by
          cases p with
          | mk a b => cases h; rfl
        rw [hkp]
        exact List.mem_cons_self p rest
      · intro _
        simp [hmContainsKey, h]
    · rw [show hmContainsKey k (p :: rest) = hmContainsKey k rest from by
        simp [hmContainsKey, h]]
      rw [ih]
      constructor
      · rintro ⟨a, ha⟩
        exact ⟨a, List.mem_cons_of_mem p ha⟩
      · rintro ⟨a, ha⟩
        rcases List.mem_cons.mp ha with he | hm
        · exact absurd (congrArg Prod.fst he).symm h
        · exact ⟨a, hm⟩

theorem keys_insert_eq (k : TypeId) (v : AnyArc) (l : List (TypeId × AnyArc)) :
    (hmInsert k v l).map Prod.fst
      = if hmContainsKey k l then l.map Prod.fst else l.map Prod.fst ++ [k] := by
  induction l with
  | nil => simp [hmInsert, hmContainsKey]
  | cons p rest ih =>
    by_cases hp : p.1 = k
    · simp [hmInsert, hmContainsKey, hp]
    · by_cases hc : hmContainsKey k rest <;>
        simp [hmInsert, hmContainsKey, hp, hc, ih]

theorem not_mem_keys_of_not_contains (k : TypeId) (l : List (TypeId × AnyArc))
    (h : hmContainsKey k l = false) : k ∉ l.map Prod.fst := by
  intro hmem
  rcases List.mem_map.mp hmem with ⟨p, hp, hk⟩
  have : hmContainsKey k l = true :=
    (hmContainsKey_iff_mem k l).mpr ⟨p.2, by rw [← hk]; exact hp⟩
  rw [h] at this
  exact Bool.false_ne_true this

theorem keys_nodup_insert (k : TypeId) (v : AnyArc) (l : List (TypeId × AnyArc))
    (h : (l.map Prod.fst).Nodup) : ((hmInsert k v l).map Prod.fst).Nodup := by
  rw [keys_insert_eq]
  by_cases hc : hmContainsKey k l
  · simpa [hc] using h
  · have hnm := not_mem_keys_of_not_contains k l (by simpa using hc)
    rw [if_neg hc, List.nodup_append]
    refine ⟨h, List.nodup_singleton k, ?_⟩
    intro a ha hb
    have hak : a = k := List.mem_singleton.mp hb
    exact hnm (hak ▸ ha)

/-- Claim C1: registering `v2` after `v1` under the same type identity makes
`get` return the handle to `v2` and never the one to `v1`; the second
registration replaces the first entry, the map holds exactly the entry
`(tid, v2)` under `T`'s identity, and keys stay unique (at most one entry
per type identity). -/
theorem register_replace_unique (s : RegistryState) (tid : TypeId) (n : String)
    (v1 v2 : Nat) (hwf : (s.store.map Prod.fst).Nodup) (hne : v1 ≠ v2) :
    (get (register (register s false tid n v1).1 false tid n v2).1 false tid n).2.2
      = RResult.ok (Arc.mk v2)
    ∧ (get (register (register s false tid n v1).1 false tid n v2).1 false tid n).2.2
      ≠ RResult.ok (Arc.mk v1)
    ∧ hmGet tid (register (register s false tid n v1).1 false tid n v2).1.store
      = some ⟨tid, v2⟩
    ∧ (((register (register s false tid n v1).1 false tid n v2).1.store.map Prod.fst)).Nodup := by
  have hlookup :
      hmGet tid (register (register s false tid n v1).1 false tid n v2).1.store
        = some ⟨tid, v2⟩ := by
    simp [register, register_arc, hmGet_insert_self]
  have hres :
      (get (register (register s false tid n v1).1 false tid n v2).1 false tid n).2.2
        = RResult.ok (Arc.mk v2) := by
    simp [get, hlookup, downcast]
  refine ⟨hres, ?_, hlookup, ?_⟩
  · rw [hres]
    intro hcontra
    exact hne (by injection hcontra with h; injection h with h'; exact h'.symm) |>.elim
  · simpa [register, register_arc] using
      keys_nodup_insert tid ⟨tid, v2⟩ _ (keys_nodup_insert tid ⟨tid, v1⟩ s.store hwf)

/-- Witness for C1 at the empty registry, `v1 = 1`, `v2 = 2`. -/
theorem register_replace_unique_witness :
    ((⟨[], false⟩ : RegistryState).store.map Prod.fst).Nodup ∧ (1 : Nat) ≠ 2
    ∧ (get (register (register ⟨[], false⟩ false 0 "i32" 1).1 false 0 "i32" 2).1 false 0 "i32").2.2
        = RResult.ok (Arc.mk 2)
    ∧ (get (register (register ⟨[], false⟩ false 0 "i32" 1).1 false 0 "i32" 2).1 false 0 "i32").2.2
        ≠ RResult.ok (Arc.mk 1) :=
  ⟨by decide, by decide,
    (register_replace_unique ⟨[], false⟩ 0 "i32" 1 2 (by decide) (by decide)).1,
    (register_replace_unique ⟨[], false⟩ 0 "i32" 1 2 (by decide) (by decide)).2.1⟩

/-- Claim C2: on a registry state with no entry under `T`'s type identity,
`get` returns `TypeNotFound` carrying `T`'s name and `contains` returns
`Ok(false)`; both are total functions of the state (no panic). -/
theorem get_contains_miss (s : RegistryState) (tid : TypeId) (n : String)
    (h : hmContainsKey tid s.store = false) :
    (get s false tid n).2.2 = RResult.err (.TypeNotFound n)
    ∧ (contains s false tid n).2.2 = RResult.ok false := by
  have hget : hmGet tid s.store = none := by
    have hiso := hmContainsKey_eq_isSome tid s.store
    rw [h] at hiso
    cases hg : hmGet tid s.store with
    | none => rfl
    | some a => rw [hg] at hiso; simp at hiso
  exact ⟨by simp [get, hget], by simp [contains, h]⟩

/-- Witness for C2 at the empty registry and the identity for `String`. -/
theorem get_contains_miss_witness :
    hmContainsKey 0 (⟨[], false⟩ : RegistryState).store = false
    ∧ (get ⟨[], false⟩ false 0 "alloc::string::String").2.2
        = RResult.err (.TypeNotFound "alloc::string::String")
    ∧ (contains ⟨[], false⟩ false 0 "alloc::string::String").2.2 = RResult.ok false :=
  ⟨by decide,
    (get_contains_miss ⟨[], false⟩ 0 "alloc::string::String" (by decide)).1,
    (get_contains_miss ⟨[], false⟩ 0 "alloc::string::String" (by decide)).2⟩

/-- Claim C3 counterexample: on a poisoned storage lock, `get` and
`contains` do surface the `RegistryLock` error instead of recovering, and
`clear` does not remove the entries (the store still holds its entry). -/
theorem poisoned_ops_cex :
    (get ⟨[(0, ⟨0, 42⟩)], false⟩ true 0 "i32").2.2 = RResult.err .RegistryLock
    ∧ (contains ⟨[(0, ⟨0, 42⟩)], false⟩ true 0 "i32").2.2 = RResult.err .RegistryLock
    ∧ (clear ⟨[(0, ⟨0, 42⟩)], false⟩ true).1.store ≠ [] := by
  decide

/-- Claim C3 (amended): only `register`/`register_arc` (and the trace-hub
operations) recover a poisoned lock and complete their normal effect;
`get`, `get_cloned` and `contains` return the `RegistryLock` error when the
storage lock is poisoned (emitting no event), and `clear` emits its event
but leaves the map unchanged. -/
theorem poisoned_lock_behavior (s : RegistryState) (tid : TypeId) (n : String) (v : Nat) :
    (register s true tid n v).1.store = hmInsert tid ⟨tid, v⟩ s.store
    ∧ (register s true tid n v).2 = emit_event s (RegistryEvent.Register n)
    ∧ (get s true tid n).2.2 = RResult.err .RegistryLock
    ∧ (get s true tid n).2.1 = []
    ∧ (get_cloned s true tid n).2.2 = RResult.err .RegistryLock
    ∧ (contains s true tid n).2.2 = RResult.err .RegistryLock
    ∧ (contains s true tid n).2.1 = []
    ∧ (clear s true).1 = s
    ∧ (clear s true).2 = emit_event s RegistryEvent.Clear :=
  ⟨rfl, rfl, rfl, rfl, rfl, rfl, rfl, rfl, rfl⟩

/-- Claim C5: `clear` (with a healthy lock, the only reachable case) empties
the store, after it every `get` misses with `TypeNotFound` and every
`contains` answers `Ok(false)`, clearing an already-empty store leaves it
empty, and clearing twice equals clearing once; `clear` returns no error by
construction. -/
theorem clear_idempotent_total (s : RegistryState) (tid : TypeId) (n : String) :
    (clear s false).1.store = []
    ∧ (get (clear s false).1 false tid n).2.2 = RResult.err (.TypeNotFound n)
    ∧ (contains (clear s false).1 false tid n).2.2 = RResult.ok false
    ∧ (clear (clear s false).1 false).1 = (clear s false).1 := by
  refine ⟨rfl, ?_, ?_, rfl⟩ <;> simp [clear, get, contains, hmGet, hmContainsKey]

/-- Claim C7: `register` is exactly `register_arc` applied to a freshly
allocated `Arc` around the value: the resulting states and the delivered
events coincide (the full results are equal). -/
theorem register_eq_register_arc (s : RegistryState) (poisoned : Bool) (tid : TypeId)
    (n : String) (v : Nat) :
    register s poisoned tid n v = register_arc s poisoned tid n (Arc.mk v)
    ∧ (register s poisoned tid n v).1.store
      = (register_arc s poisoned tid n (Arc.mk v)).1.store
    ∧ (register s poisoned tid n v).2 = (register_arc s poisoned tid n (Arc.mk v)).2 :=
  ⟨rfl, rfl, rfl⟩

/-- Claim C8: the read-only operations `get`, `get_cloned` and `contains`
leave the registry state (in particular the map) unchanged, whether they
succeed or fail and whether or not the lock is poisoned. -/
theorem read_ops_preserve_state (s : RegistryState) (poisoned : Bool) (tid : TypeId)
    (n : String) :
    (get s poisoned tid n).1 = s
    ∧ (get_cloned s poisoned tid n).1 = s
    ∧ (contains s poisoned tid n).1 = s := by
  have hget : (get s poisoned tid n).1 = s := by cases poisoned <;> rfl
  have hcon : (contains s poisoned tid n).1 = s := by cases poisoned <;> rfl
  have hgc : (get_cloned s poisoned tid n).1 = (get s poisoned tid n).1 := by
    unfold get_cloned
    rcases hg : get s poisoned tid n with ⟨s', evs, r⟩
    cases r <;> rfl
  exact ⟨hget, hgc.trans hget, hcon⟩

/-!
Micro-step trace of `register_arc`, for the ordering claim about the
`Registered` event. The actions transcribe the statement order of
`registry_trait.rs` lines 124-134: the `emit_event(...)` call is the first
statement (line 125), the storage lock is acquired afterwards (lines
130-131), the insert happens under that lock (line 133), and the lock guard
is dropped at the end of the statement.
-/

/-- One primitive step performed by a registry operation. -/
inductive Action where
  | emit (event : RegistryEvent)
  | lockStore
  | insertStore (tid : TypeId)
  | unlockStore
deriving DecidableEq, Repr

/-- The sequence of primitive steps of `register_arc::<T>` in program order. -/
def register_arcActions (tid : TypeId) (type_name : String) : List Action :=
  [Action.emit (RegistryEvent.Register type_name), Action.lockStore,
   Action.insertStore tid, Action.unlockStore]

/-- Index of the first occurrence of an action in a trace (length if absent). -/
def firstIdx : List Action → Action → Nat
  | [], _ => 0
  | x :: xs, a => if x = a then 0 else firstIdx xs a + 1

/-- Number of occurrences of an action in a trace. -/
def countAct (a : Action) : List Action → Nat
  | [] => 0
  | x :: xs => (if x = a then 1 else 0) + countAct a xs

/-- The store lock is held just before executing the action at index `i`. -/
def StoreLockHeldAt (l : List Action) (i : Nat) : Prop :=
  countAct Action.unlockStore (l.take i) < countAct Action.lockStore (l.take i)

/-- Claim C4 counterexample: in `register_arc`'s step sequence the insertion
does not precede the `Registered` emission — the event is emitted first, so
the claimed "emitted only after the insertion is durably visible" ordering
fails on the concrete call `register_arc::<i32>`. -/
theorem register_event_after_insert_cex :
    ¬ (firstIdx (register_arcActions 0 "i32") (Action.insertStore 0)
        < firstIdx (register_arcActions 0 "i32") (Action.emit (RegistryEvent.Register "i32"))) := by
  decide

/-- Claim C4 (amended): in every execution of `register_arc::<T>` the
`Registered` event is emitted strictly before the insertion of the value
into the store's map, and at the emission point no store lock is held. -/
theorem register_event_before_insert (tid : TypeId) (n : String) :
    firstIdx (register_arcActions tid n) (Action.emit (RegistryEvent.Register n)) = 0
    ∧ firstIdx (register_arcActions tid n) (Action.insertStore tid) = 2
    ∧ firstIdx (register_arcActions tid n) (Action.emit (RegistryEvent.Register n))
        < firstIdx (register_arcActions tid n) (Action.insertStore tid)
    ∧ ¬ StoreLockHeldAt (register_arcActions tid n)
        (firstIdx (register_arcActions tid n) (Action.emit (RegistryEvent.Register n))) := by
  have hemit :
      firstIdx (register_arcActions tid n) (Action.emit (RegistryEvent.Register n)) = 0 := by
    simp [register_arcActions, firstIdx]
  have hins :
      firstIdx (register_arcActions tid n) (Action.insertStore tid) = 2 := by
    simp [register_arcActions, firstIdx]
  refine ⟨hemit, hins, by rw [hemit, hins]; exact Nat.zero_lt_two, ?_⟩
  rw [hemit]
  simp [StoreLockHeldAt, countAct]

/-- Substring test on character lists: `a` occurs contiguously in `b`. -/
def occursIn (a b : List Char) : Bool :=
  (List.range (b.length + 1)).any fun i => ((b.drop i).take a.length) == a

/-- Substring test on strings (for the "log entry contains ..." parts of the
tracing claim). -/
def strOccurs (a b : String) : Bool :=
  occursIn a.toList b.toList

/-- Claim C6: from a freshly cleared store (empty map) with a callback
installed that appends each event's `Display` text to a log, the sequence
`register::<i32>(42)`, `get::<i32>()`, `contains::<i32>()` produces exactly
three log entries in that order; the first contains "register" and "i32",
the second "get" and "found: true", the third "contains" and "found: true". -/
theorem tracing_three_ops_log :
    ((register ⟨[], true⟩ false 0 "i32" 42).2
        ++ (get (register ⟨[], true⟩ false 0 "i32" 42).1 false 0 "i32").2.1
        ++ (contains (get (register ⟨[], true⟩ false 0 "i32" 42).1 false 0 "i32").1
              false 0 "i32").2.1).map RegistryEvent.display
      = ["register \x7b type_name: i32 \x7d",
         "get \x7b type_name: i32, found: true \x7d",
         "contains \x7b type_name: i32, found: true \x7d"]
    ∧ strOccurs "register" "register \x7b type_name: i32 \x7d" = true
    ∧ strOccurs "i32" "register \x7b type_name: i32 \x7d" = true
    ∧ strOccurs "get" "get \x7b type_name: i32, found: true \x7d" = true
    ∧ strOccurs "found: true" "get \x7b type_name: i32, found: true \x7d" = true
    ∧ strOccurs "contains" "contains \x7b type_name: i32, found: true \x7d" = true
    ∧ strOccurs "found: true" "contains \x7b type_name: i32, found: true \x7d" = true := by
  refine ⟨?_, ?_, ?_, ?_, ?_, ?_, ?_⟩ <;> decide

/-- Claim C9: the `found` flag of the `Get` event that `get::<T>()` delivers
equals `result.is_ok()`; in particular, when the entry under `T`'s identity
fails to downcast (`TypeMismatch`), the event reports `found: false` even
though an entry is present in the map. -/
theorem get_event_found_matches_result (s : RegistryState) (tid : TypeId) (n : String)
    (hcb : s.traceCb = true) :
    (get s false tid n).2.1 = [RegistryEvent.Get n ((get s false tid n).2.2).is_ok]
    ∧ (∀ a, hmGet tid s.store = some a → a.dynType ≠ tid →
        (get s false tid n).2.2 = RResult.err (.TypeMismatch n)
        ∧ (get s false tid n).2.1 = [RegistryEvent.Get n false]) := by
  constructor
  · simp [get, emit_event, hcb]
  · intro a ha hne
    constructor
    · simp [get, ha, downcast, hne]
    · simp [get, ha, downcast, hne, emit_event, hcb, RResult.is_ok]

/-- Witness for C9: a state whose entry under identity `0` has dynamic type
`1`, so the downcast fails while the entry is present. -/
theorem get_event_found_matches_result_witness :
    (⟨[(0, ⟨1, 7⟩)], true⟩ : RegistryState).traceCb = true
    ∧ hmGet 0 (⟨[(0, ⟨1, 7⟩)], true⟩ : RegistryState).store = some ⟨1, 7⟩
    ∧ (get ⟨[(0, ⟨1, 7⟩)], true⟩ false 0 "i32").2.2 = RResult.err (.TypeMismatch "i32")
    ∧ (get ⟨[(0, ⟨1, 7⟩)], true⟩ false 0 "i32").2.1 = [RegistryEvent.Get "i32" false] := by
  have h := (get_event_found_matches_result ⟨[(0, ⟨1, 7⟩)], true⟩ 0 "i32" rfl).2
    ⟨1, 7⟩ rfl (by decide)
  exact ⟨rfl, rfl, h.1, h.2⟩

/-- Claim C10: `contains::<T>()` answers `Ok(true)` exactly when some entry
is stored under `T`'s type identity, regardless of downcastability; on a
state holding a non-downcastable entry under `T`'s identity, `contains`
returns `Ok(true)` while `get` returns `TypeMismatch`. -/
theorem contains_reports_entry_presence (s : RegistryState) (tid : TypeId) (n : String) :
    (contains s false tid n).2.2 = RResult.ok (hmContainsKey tid s.store)
    ∧ (hmContainsKey tid s.store = true ↔ ∃ a, (tid, a) ∈ s.store)
    ∧ (∀ a, hmGet tid s.store = some a → a.dynType ≠ tid →
        (contains s false tid n).2.2 = RResult.ok true
        ∧ (get s false tid n).2.2 = RResult.err (.TypeMismatch n)) := by
  refine ⟨rfl, hmContainsKey_iff_mem tid s.store, ?_⟩
  intro a ha hne
  constructor
  · have hck : hmContainsKey tid s.store = true := by
      rw [hmContainsKey_eq_isSome, ha]
      rfl
    simp [contains, hck]
  · simp [get, ha, downcast, hne]

/-- Witness for C10: a state whose entry under identity `3` has dynamic type
`4`; `contains` says true while `get` reports `TypeMismatch`. -/
theorem contains_reports_entry_presence_witness :
    hmGet 3 (⟨[(3, ⟨4, 11⟩)], false⟩ : RegistryState).store = some ⟨4, 11⟩
    ∧ (contains ⟨[(3, ⟨4, 11⟩)], false⟩ false 3 "u8").2.2 = RResult.ok true
    ∧ (get ⟨[(3, ⟨4, 11⟩)], false⟩ false 3 "u8").2.2 = RResult.err (.TypeMismatch "u8") := by
  have h := (contains_reports_entry_presence ⟨[(3, ⟨4, 11⟩)], false⟩ 3 "u8").2.2
    ⟨4, 11⟩ rfl (by decide)
  exact ⟨rfl, h.1, h.2⟩

end SingletonRegistry
